import Mathlib

/-!
# Verification of `rdsr_summary.py`

A shallow embedding of the core logic of the RDSR summary tool:
the targeted-concept extractor over DICOM structured-report content trees
(`extract_targeted_data` / `parse_sequence`), the record loader
(`load_dicom_data`), the filter pipeline (`apply_all_filters`,
`clear_all_filters`), the sort comparator (`sort_column`), the summary
statistics (`show_summary_stats`) and the multiple-exposure grouping
(`show_multiple_exposures_table`).

Conventions of the embedding:
* Python dictionaries are association lists (`Dict`); `dictInsert` mimics
  `d[k] = v` (replace in place when the key exists, append otherwise).
* A pandas cell is a `PyVal`: a numeric value, a string, `NaN` (`pNone`),
  `NaT` (`pNaT`, the missing value of a datetime column), or a parsed
  datetime day (`pDate`, encoded as `y*10000 + m*100 + d`, whose `Nat`
  order agrees with chronological order).
* Python `float` values arising from parsing decimal strings are modelled
  exactly as rationals, represented by `PFloat` (an integer numerator over
  a positive power-of-ten-product denominator, kept unnormalised so that
  every arithmetic step is plain `Int`/`Nat` computation); comparisons are
  exact cross-multiplications, so the order agrees with the rational
  order. `float("inf")`/`float("nan")` literals are outside the model.
-/

set_option autoImplicit false

namespace RDSR

/-- An exact rational `num / den` with `den` positive by construction
(every constructor below produces a product of powers of ten). Two
values denote the same rational when their cross-products agree; the
pipeline only ever compares values through `blt`/`ble`, never through
structural equality. -/
structure PFloat : Type where
  num : Int
  den : Nat
  deriving DecidableEq, Repr, Inhabited

/-- Exact `a < b` on denoted rationals (positive denominators). -/
def PFloat.blt (a b : PFloat) : Bool :=
  decide (a.num * (b.den : Int) < b.num * (a.den : Int))

/-- Exact `a ≤ b` on denoted rationals (positive denominators). -/
def PFloat.ble (a b : PFloat) : Bool :=
  decide (a.num * (b.den : Int) ≤ b.num * (a.den : Int))

def PFloat.add (a b : PFloat) : PFloat :=
  ⟨a.num * b.den + b.num * a.den, a.den * b.den⟩

def PFloat.sub (a b : PFloat) : PFloat :=
  ⟨a.num * b.den - b.num * a.den, a.den * b.den⟩

def PFloat.mul (a b : PFloat) : PFloat :=
  ⟨a.num * b.num, a.den * b.den⟩

def PFloat.divNat (a : PFloat) (n : Nat) : PFloat :=
  ⟨a.num, a.den * n⟩

def PFloat.neg (a : PFloat) : PFloat :=
  ⟨-a.num, a.den⟩

/-- The denoted rational value (the semantics of a `PFloat`). -/
def PFloat.toRat (a : PFloat) : Rat :=
  (a.num : Rat) / (a.den : Rat)

def pfInt (n : Int) : PFloat := ⟨n, 1⟩

/-- A cell value as it appears in a pandas `DataFrame` of the source:
a number, a string, `NaN`, `NaT`, or a (day-normalised) datetime. -/
inductive PyVal : Type where
  | pNum (q : PFloat)
  | pStr (s : String)
  | pNone
  | pNaT
  | pDate (n : Nat)
  deriving DecidableEq, Repr, Inhabited

/-- A Python `dict` keyed by concept/column name, as an association list
in insertion order (the record being built by `extract_targeted_data`,
and a `DataFrame` row). -/
abbrev Dict := List (String × PyVal)

/-- Python `d[k] = v` on a dict: replace the value in place when `k` is
already a key, append `(k, v)` otherwise (insertion order preserved). -/
def dictInsert (d : Dict) (k : String) (v : PyVal) : Dict :=
  if (d.map Prod.fst).contains k then
    d.map (fun p => if p.1 = k then (k, v) else p)
  else
    d ++ [(k, v)]

/-- The `target_concepts` set of the source (its literal 30 members).
Python iterates a `set` in an unspecified order; the order below is the
literal order, which is only ever used where order is immaterial. -/
def target_concepts : List String :=
  ["SOPInstanceUID", "ContentDate", "ContentTime", "StationName",
   "PatientName", "PatientID", "PatientBirthDate", "PatientSex",
   "SoftwareVersions", "StudyInstanceUID", "SeriesInstanceUID",
   "SeriesNumber", "Person Observer Name", "Start of X-Ray Irradiation",
   "End of X-Ray Irradiation", "Total Number of Irradiation Events",
   "CT Dose Length Product Total", "Acquisition Protocol",
   "Irradiation Event UID", "Exposure Time", "Scanning Length",
   "Nominal Single Collimation Width", "Nominal Total Collimation Width",
   "Identification of the X-Ray Source", "KVP",
   "Maximum X-Ray Tube Current", "X-Ray Tube Current",
   "Exposure Time per Rotation", "Mean CTDIvol", "DLP"]

/-- The `column_order` list of `load_dicom_data` (the canonical output
column order; same 30 names as `target_concepts`). -/
def column_order : List String :=
  ["SOPInstanceUID", "ContentDate", "ContentTime", "StationName",
   "PatientName", "PatientID", "PatientBirthDate", "PatientSex",
   "SoftwareVersions", "StudyInstanceUID", "SeriesInstanceUID",
   "SeriesNumber", "Person Observer Name", "Start of X-Ray Irradiation",
   "End of X-Ray Irradiation", "Total Number of Irradiation Events",
   "CT Dose Length Product Total", "Acquisition Protocol",
   "Irradiation Event UID", "Exposure Time", "Scanning Length",
   "Nominal Single Collimation Width", "Nominal Total Collimation Width",
   "Identification of the X-Ray Source", "KVP",
   "Maximum X-Ray Tube Current", "X-Ray Tube Current",
   "Exposure Time per Rotation", "Mean CTDIvol", "DLP"]

/-- One node of a DICOM SR content tree, carrying exactly the attributes
`parse_sequence` inspects.
* `conceptName`: the `CodeMeaning` of the first item of the Concept Name
  Code Sequence `(0040,A043)`, when present.
* `mvs`: `some nv` when a `MeasuredValueSequence` (with a first item) is
  present; `nv` is that item's optional `NumericValue`.
* `textValue`, `dateTime`, `uidValue`, `personName`: the corresponding
  optional string attributes (`TextValue`, `DateTime`, `UID`,
  `PersonName`).
* `children`: the nested `ContentSequence` (absent ≡ `[]`, since
  recursing into an empty sequence is a no-op). -/
inductive ContentNode : Type where
  | mk (conceptName : Option String) (mvs : Option (Option PFloat))
      (textValue : Option String) (dateTime : Option String)
      (uidValue : Option String) (personName : Option String)
      (children : List ContentNode)
  deriving Inhabited

def ContentNode.conceptName : ContentNode → Option String
  | .mk c _ _ _ _ _ _ => c

def ContentNode.mvs : ContentNode → Option (Option PFloat)
  | .mk _ m _ _ _ _ _ => m

def ContentNode.textValue : ContentNode → Option String
  | .mk _ _ t _ _ _ _ => t

def ContentNode.dateTime : ContentNode → Option String
  | .mk _ _ _ d _ _ _ => d

def ContentNode.uidValue : ContentNode → Option String
  | .mk _ _ _ _ u _ _ => u

def ContentNode.personName : ContentNode → Option String
  | .mk _ _ _ _ _ p _ => p

def ContentNode.children : ContentNode → List ContentNode
  | .mk _ _ _ _ _ _ cs => cs

/-- The value the `if "MeasuredValueSequence" in item` branch stores:
`measured.get("NumericValue", None)` — the numeric value when present,
Python `None` otherwise. -/
def mvsVal (nv : Option PFloat) : PyVal :=
  match nv with
  | some q => PyVal.pNum q
  | none => PyVal.pNone

/-- The `elif` chain of `parse_sequence`: the at-most-one value read from
a matching node, with precedence `MeasuredValueSequence`, `TextValue`,
`DateTime`, `UID`, `PersonName`; `none` when no kind is present. -/
def nodeValue (n : ContentNode) : Option PyVal :=
  match n.mvs with
  | some nv => some (mvsVal nv)
  | none =>
    match n.textValue with
    | some s => some (PyVal.pStr s)
    | none =>
      match n.dateTime with
      | some s => some (PyVal.pStr s)
      | none =>
        match n.uidValue with
        | some s => some (PyVal.pStr s)
        | none =>
          match n.personName with
          | some s => some (PyVal.pStr s)
          | none => none

/-- The per-item write of `parse_sequence`: if the resolved concept name
is truthy (non-empty) and in `target_concepts`, store the node's value
(when it has one) under that name. -/
def nodeWrite (d : Dict) (n : ContentNode) : Dict :=
  match n.conceptName with
  | some c =>
    if c ≠ "" ∧ c ∈ target_concepts then
      match nodeValue n with
      | some v => dictInsert d c v
      | none => d
    else d
  | none => d

mutual

/-- One iteration of the `for item in sequence` loop body: write the
item's matched value into the record, then recurse into its nested
`ContentSequence`. -/
def parseItem (d : Dict) : ContentNode → Dict
  | ContentNode.mk c m t dt u p cs =>
    parse_sequence (nodeWrite d (ContentNode.mk c m t dt u p cs)) cs

/-- The function `parse_sequence`: fold the loop body over the sequence,
threading the record (the Python closure mutates `data` in place). -/
def parse_sequence (d : Dict) : List ContentNode → Dict
  | [] => d
  | n :: rest => parse_sequence (parseItem d n) rest

end

/-- One successfully read DICOM dataset: its top-level `ContentSequence`
and its top-level attributes. `topAttrs` is the partial map
`tag ↦ str(ds.data_element(tag).value)`: `some s` when the tag is in
`ds.dir()` and reading (plus `str` coercion) succeeds, `none` when the
tag is absent or reading raises (the `except: pass` branch). -/
structure Doc : Type where
  contentSeq : List ContentNode
  topAttrs : List (String × String)
  deriving Inhabited

/-- The function `extract_targeted_data`: parse the content tree, then, for every
target concept that is also a readable top-level attribute, store its
`str`-coerced value (possibly overwriting the tree's value). -/
def extract_targeted_data (doc : Doc) : Dict :=
  let d := parse_sequence [] doc.contentSeq
  target_concepts.foldl
    (fun d tag =>
      match List.lookup tag doc.topAttrs with
      | some s => dictInsert d tag (PyVal.pStr s)
      | none => d) d

/-- The `records` list built by `load_dicom_data`: one extracted dict per
document, appended only when non-empty (`if info:`). -/
def loadRecords (docs : List Doc) : List Dict :=
  (docs.map extract_targeted_data).filter (fun info => decide (info ≠ []))

/-- Columns of `pd.DataFrame(records)`: union of the records' keys in
first-appearance order. -/
def addCols (cols : List String) (r : Dict) : List String :=
  cols ++ (r.map Prod.fst).filter (fun k => !cols.contains k)

def dataFrameColumns (records : List Dict) : List String :=
  records.foldl addCols []

/-- A pandas `DataFrame`: a column list plus one association list per
row. A column `c` of the frame whose key is absent from a row's list is
that row's `NaN` cell. -/
structure Table : Type where
  columns : List String
  rows : List Dict
  deriving DecidableEq, Repr, Inhabited

/-- One row under `df.reindex(columns=newCols)`: per requested column,
keep the old frame's cell when the column existed there (an absent key
is that row's `NaN` cell, which stays absent); cells of dropped columns
are discarded; newly introduced columns are `NaN` (absent). -/
def reindexRow (oldCols : List String) (r : Dict) : List String → Dict
  | [] => []
  | c :: cs =>
    if oldCols.contains c then
      match List.lookup c r with
      | some v => (c, v) :: reindexRow oldCols r cs
      | none => reindexRow oldCols r cs
    else reindexRow oldCols r cs

def reindexTable (t : Table) (newCols : List String) : Table :=
  { columns := newCols, rows := t.rows.map (fun r => reindexRow t.columns r newCols) }

def dataFrameOf (records : List Dict) : Table :=
  { columns := dataFrameColumns records, rows := records }

/-- The method `load_dicom_data` on the already-read datasets: build the records
list, make a `DataFrame`, reindex to `column_order`. -/
def load_dicom_data (docs : List Doc) : Table :=
  reindexTable (dataFrameOf (loadRecords docs)) column_order

/-! ## Python `float()` on strings, modelled exactly over `PFloat` -/

def digitsVal (cs : List Char) : Nat :=
  cs.foldl (fun n c => n * 10 + (c.toNat - 48)) 0

/-- Whitespace as stripped by Python `str.strip()` (its ASCII core). -/
def isSpaceChar (c : Char) : Bool :=
  c = ' ' ∨ c = '\t' ∨ c = '\n' ∨ c = '\r' ∨ c = '\x0b' ∨ c = '\x0c'

def trimChars (cs : List Char) : List Char :=
  ((cs.dropWhile isSpaceChar).reverse.dropWhile isSpaceChar).reverse

/-- Python `s.strip()`. -/
def strStrip (s : String) : String :=
  String.mk (trimChars s.toList)

/-- The unsigned part of Python's `float()` grammar:
`digits [. digits] [(e|E) [sign] digits]`, at least one mantissa digit
(`inf`/`nan` literals and underscores are outside the model). -/
def parseUnsigned (cs : List Char) : Option PFloat :=
  let ip := cs.takeWhile Char.isDigit
  let rest := cs.dropWhile Char.isDigit
  let fp :=
    match rest with
    | '.' :: r => r.takeWhile Char.isDigit
    | _ => []
  let rest2 :=
    match rest with
    | '.' :: r => r.dropWhile Char.isDigit
    | _ => rest
  if ip = [] ∧ fp = [] then none
  else
    let mant : PFloat :=
      ⟨((digitsVal ip * 10 ^ fp.length + digitsVal fp : Nat) : Int), 10 ^ fp.length⟩
    match rest2 with
    | [] => some mant
    | e :: r3 =>
      if e = 'e' ∨ e = 'E' then
        let neg : Bool := match r3 with | '-' :: _ => true | _ => false
        let r4 := match r3 with | '+' :: t => t | '-' :: t => t | t => t
        let ed := r4.takeWhile Char.isDigit
        if ed = [] ∨ r4.dropWhile Char.isDigit ≠ [] then none
        else if neg then some ⟨mant.num, mant.den * 10 ^ digitsVal ed⟩
        else some ⟨mant.num * ((10 ^ digitsVal ed : Nat) : Int), mant.den⟩
      else none

/-- Python `float(s)`: strip surrounding whitespace, optional sign, then
the unsigned grammar; `none` models the raised `ValueError`. -/
def parseFloat (s : String) : Option PFloat :=
  match trimChars s.toList with
  | '+' :: r => parseUnsigned r
  | '-' :: r => (parseUnsigned r).map PFloat.neg
  | r => parseUnsigned r

/-! ## Dates -/

def isLeap (y : Nat) : Bool :=
  (y % 4 = 0 && y % 100 ≠ 0) || y % 400 = 0

def daysInMonth (y m : Nat) : Nat :=
  if m = 2 then (if isLeap y then 29 else 28)
  else if m = 4 ∨ m = 6 ∨ m = 9 ∨ m = 11 then 30
  else 31

/-- A calendar day encoded as `y*10000 + m*100 + d` (so that `Nat` order
is chronological order), when `(y, m, d)` is a valid date. -/
def dateFromYMD (y m d : Nat) : Option Nat :=
  if 1 ≤ m ∧ m ≤ 12 ∧ 1 ≤ d ∧ d ≤ daysInMonth y m then
    some (y * 10000 + m * 100 + d)
  else none

/-- Strict `pd.to_datetime(s, format="%Y%m%d")`: exactly eight digits forming a
valid calendar day. -/
def parseDate8 (s : String) : Option Nat :=
  match s.toList with
  | [y1, y2, y3, y4, m1, m2, d1, d2] =>
    if [y1, y2, y3, y4, m1, m2, d1, d2].all Char.isDigit then
      dateFromYMD (digitsVal [y1, y2, y3, y4]) (digitsVal [m1, m2]) (digitsVal [d1, d2])
    else none
  | _ => none

def parseDateDashed (cs : List Char) : Option Nat :=
  match cs with
  | [y1, y2, y3, y4, '-', m1, m2, '-', d1, d2] =>
    if [y1, y2, y3, y4, m1, m2, d1, d2].all Char.isDigit then
      dateFromYMD (digitsVal [y1, y2, y3, y4]) (digitsVal [m1, m2]) (digitsVal [d1, d2])
    else none
  | _ => none

def timeValid (cs : List Char) : Bool :=
  match cs with
  | [h1, h2, ':', m1, m2, ':', s1, s2] =>
    [h1, h2, m1, m2, s1, s2].all Char.isDigit &&
      digitsVal [h1, h2] < 24 && digitsVal [m1, m2] < 60 && digitsVal [s1, s2] < 60
  | _ => false

/-- Format-free `pd.to_datetime(s, errors="coerce")` followed by
`.dt.normalize()`, restricted to the shapes the pipeline produces:
`YYYY-MM-DD`, `YYYY-MM-DD HH:MM:SS`, or `YYYYMMDD`; the time of day is
discarded. -/
def parseDateFlex (s : String) : Option Nat :=
  let cs := s.toList
  if cs.length = 19 then
    match cs.drop 10 with
    | ' ' :: timePart =>
      if timeValid timePart then parseDateDashed (cs.take 10) else none
    | _ => none
  else if cs.length = 10 then parseDateDashed cs
  else parseDate8 s

def pad2 (n : Nat) : String :=
  if n < 10 then "0" ++ toString n else toString n

/-- Rendering `str()` of a day-normalised pandas datetime: `YYYY-MM-DD`. -/
def dateStr (n : Nat) : String :=
  toString (n / 10000) ++ "-" ++ pad2 (n / 100 % 100) ++ "-" ++ pad2 (n % 100)

/-! ## String helpers -/

def lowerStr (s : String) : String :=
  String.mk (s.toList.map Char.toLower)

def matchesAt : List Char → List Char → Bool
  | [], _ => true
  | _ :: _, [] => false
  | a :: asx, b :: bs => a = b && matchesAt asx bs

def subMatch (p : List Char) : List Char → Bool
  | [] => matchesAt p []
  | l@(_ :: rest) => matchesAt p l || subMatch p rest

/-- Case-insensitive substring containment, the effect of
`ser.astype(str).str.contains(val, case=False, na=False)` for a pattern
without regex metacharacters. -/
def containsCI (s v : String) : Bool :=
  subMatch (lowerStr v).toList (lowerStr s).toList

/-- Rendering `astype(str)` of one cell: `NaN` prints `nan`, `NaT` prints `NaT`,
datetimes print `YYYY-MM-DD`. The numeric rendering is a canonical
decimal form (the source only text-filters string columns). -/
def pyStr : PyVal → String
  | .pStr s => s
  | .pNum q => toString q.num ++ "/" ++ toString q.den
  | .pNone => "nan"
  | .pNaT => "NaT"
  | .pDate n => dateStr n

/-! ## Filter pipeline (`apply_all_filters`, `clear_all_filters`) -/

/-- The coerced `ContentDate` value of one row:
`pd.to_datetime(df["ContentDate"], format="%Y%m%d", errors="coerce")`.
Strings must parse as `YYYYMMDD`; everything unparseable (including
`NaN`) coerces to `NaT`; already-datetime cells pass through. -/
def coercedDate (r : Dict) : PyVal :=
  match List.lookup "ContentDate" r with
  | some (.pStr s) =>
    match parseDate8 s with
    | some n => PyVal.pDate n
    | none => PyVal.pNaT
  | some (.pDate n) => PyVal.pDate n
  | _ => PyVal.pNaT

/-- The assignment `df["ContentDate"] = pd.to_datetime(...)` applied to one row. -/
def coerceDates (r : Dict) : Dict :=
  dictInsert r "ContentDate" (coercedDate r)

/-- Comparison `df["ContentDate"] >= start` for one row; `NaT` never satisfies a
bound. -/
def dateCellGE (r : Dict) (b : Nat) : Bool :=
  match List.lookup "ContentDate" r with
  | some (.pDate n) => decide (b ≤ n)
  | _ => false

def dateCellLE (r : Dict) (b : Nat) : Bool :=
  match List.lookup "ContentDate" r with
  | some (.pDate n) => decide (n ≤ b)
  | _ => false

/-- One text `FilterSpec` on one row:
`df[col].astype(str).str.contains(val, case=False, na=False)`
(an absent cell is `NaN`, whose `astype(str)` form is `"nan"`). -/
def rowMatches (r : Dict) (col val : String) : Bool :=
  containsCI (pyStr ((List.lookup col r).getD PyVal.pNone)) val

/-- The `for col, val in self.active_filters` loop: each spec whose
column exists narrows the working set; a spec on an absent column is a
no-op. -/
def applySpecs (cols : List String) : List (String × String) → List Dict → List Dict
  | [], rows => rows
  | cv :: rest, rows =>
    applySpecs cols rest
      (if cols.contains cv.1 then rows.filter (fun r => rowMatches r cv.1 cv.2) else rows)

/-- The date-bound pass for the lower bound: an empty entry is inactive;
an unparseable bound shows an error box and is skipped; a parsed bound
retains rows with `ContentDate >= bound`. -/
def applyStartBound (startD : String) (rows : List Dict) : List Dict :=
  if startD = "" then rows
  else
    match parseDate8 startD with
    | some b => rows.filter (fun r => dateCellGE r b)
    | none => rows

def applyEndBound (endD : String) (rows : List Dict) : List Dict :=
  if endD = "" then rows
  else
    match parseDate8 endD with
    | some b => rows.filter (fun r => dateCellLE r b)
    | none => rows

/-- The column list of the working copy inside `apply_all_filters`: the
base columns, with `ContentDate` appended when the assignment
`df["ContentDate"] = ...` introduces it. -/
def filterCols (t : Table) : List String :=
  if t.columns.contains "ContentDate" then t.columns
  else t.columns ++ ["ContentDate"]

/-- The method `apply_all_filters` as a pure function of the base collection and
the filter state: copy the base, coerce `ContentDate`, apply the two
date bounds, then the text specs. -/
def apply_all_filters (t : Table) (startD endD : String)
    (specs : List (String × String)) : Table :=
  { columns := filterCols t
    rows := applySpecs (filterCols t) specs
      (applyEndBound endD (applyStartBound startD (t.rows.map coerceDates))) }

/-- The filter-relevant state of `DoseSummaryApp`: the base collection
`self.data`, the derived view `self.filtered_data`, the active text
filters, and the two date entry boxes. -/
structure AppState : Type where
  data : Table
  filteredData : Table
  active_filters : List (String × String)
  startDate : String
  endDate : String
  deriving DecidableEq, Repr, Inhabited

/-- One invocation of the `apply_all_filters` method: recompute
`filtered_data` from `self.data` (never from the previous view). -/
def applyAllStep (st : AppState) : AppState :=
  { st with
      filteredData := apply_all_filters st.data st.startDate st.endDate st.active_filters }

/-- The method `clear_all_filters`: clear the active filter list and both date
entries, then reapply. -/
def clear_all_filters (st : AppState) : AppState :=
  applyAllStep { st with active_filters := [], startDate := "", endDate := "" }

/-! ## Sort engine (`sort_column`)

The Treeview hands `sort_column` one display string per row; `try_sort`
maps each to a sort key (`float(val)` when it parses, `val.lower()`
otherwise), and `data.sort(key=...)` compares the keys with `<`.  In
Python 3 `<` between a `float` and a `str` raises `TypeError`, so the
sort is modelled as an `Except`-valued stable insertion sort: `.error`
is the uncaught `TypeError` escaping the callback.  (CPython's Timsort
is likewise comparison-based and stable; on a run holding both kinds of
key it performs such a mixed comparison and raises.) -/

inductive SortKey : Type where
  | num (q : PFloat)
  | str (s : String)
  deriving DecidableEq, Repr

/-- The key function `try_sort`: `float(val)` when possible, else the lowercased string. -/
def try_sort (val : String) : SortKey :=
  match parseFloat val with
  | some q => SortKey.num q
  | none => SortKey.str (lowerStr val)

/-- Python `<` on two sort keys: numeric on two floats, lexicographic on
two strings, `TypeError` on a mixed pair. -/
def keyLt : SortKey → SortKey → Except Unit Bool
  | .num a, .num b => .ok (PFloat.blt a b)
  | .str a, .str b => .ok (decide (a < b))
  | _, _ => .error ()

/-- Stable insertion of a later row among earlier rows: the new element
passes every element it is not strictly ordered before (so equal keys
keep their original order), in the requested direction. -/
def insertSorted (reverse : Bool) (x : String) :
    List String → Except Unit (List String)
  | [] => .ok [x]
  | y :: ys => do
    let c ← if reverse then keyLt (try_sort y) (try_sort x)
            else keyLt (try_sort x) (try_sort y)
    if c then return x :: y :: ys
    else return y :: (← insertSorted reverse x ys)

def sortValues (reverse : Bool) (l : List String) : Except Unit (List String) :=
  l.foldlM (fun acc x => insertSorted reverse x acc) []

/-- The method `sort_column` on one column's cell values: the reordered values and
the stored next direction (`self.sort_directions[col] = not reverse`). -/
def sort_column (values : List String) (reverse : Bool) :
    Except Unit (List String × Bool) :=
  (sortValues reverse values).map (fun l => (l, !reverse))

/-! ## Summary statistics (`show_summary_stats`) -/

/-- The net numeric coercion of one rebuilt cell: `float(val)` during
the row rebuild, then `pd.to_numeric(..., errors="coerce")`; a cell is
numeric exactly when it parses. -/
def toNumericCell : PyVal → Option PFloat
  | .pNum q => some q
  | .pStr s => parseFloat s
  | _ => none

def cellNum (r : Dict) (c : String) : Option PFloat :=
  toNumericCell ((List.lookup c r).getD PyVal.pNone)

/-- The `numeric_columns` selection: the columns with at least one numeric-parseable
cell (`df[col].notna().sum() > 0` after coercion). -/
def numericColumns (t : Table) : List String :=
  t.columns.filter (fun c => t.rows.any (fun r => (cellNum r c).isSome))

/-- The `excluded_variables` set of `show_summary_stats`. -/
def excluded_variables : List String :=
  ["Start of X-Ray Irradiation", "End of X-Ray Irradiation", "ContentTime",
   "SeriesNumber", "ContentDate", "PatientBirthDate"]

/-- The columns of the statistics table: the numeric columns minus the
fixed exclusion list (`numeric_data.drop(columns=...)`). -/
def summaryStatsColumns (t : Table) : List String :=
  (numericColumns t).filter (fun c => !excluded_variables.contains c)

/-- One row of `describe().loc[["count","mean","50%","min","max","std"]]`
(with `50%` renamed `median`). `variance` stands for `std` squared:
`std` itself is an irrational square root, which determines and is
determined by the variance. -/
structure ColStats : Type where
  count : Nat
  mean : PFloat
  median : PFloat
  minV : PFloat
  maxV : PFloat
  variance : Option PFloat
  deriving DecidableEq, Repr

def computeStats (vals : List PFloat) : ColStats :=
  let n := vals.length
  let mean := (vals.foldl PFloat.add (pfInt 0)).divNat n
  let sorted := vals.mergeSort PFloat.ble
  let median :=
    if n % 2 = 1 then sorted.getD (n / 2) (pfInt 0)
    else ((sorted.getD (n / 2 - 1) (pfInt 0)).add (sorted.getD (n / 2) (pfInt 0))).divNat 2
  { count := n
    mean := mean
    median := median
    minV := vals.foldl (fun a b => if PFloat.blt b a then b else a) (vals.headD (pfInt 0))
    maxV := vals.foldl (fun a b => if PFloat.blt a b then b else a) (vals.headD (pfInt 0))
    variance :=
      if n ≥ 2 then
        some (((vals.map (fun x => (x.sub mean).mul (x.sub mean))).foldl PFloat.add
          (pfInt 0)).divNat (n - 1))
      else none }

/-- The method `show_summary_stats` on the displayed table: per retained column,
the statistics over its numeric-parseable cells (`describe` ignores the
coerced-to-`NaN` cells). -/
def show_summary_stats (t : Table) : List (String × ColStats) :=
  (summaryStatsColumns t).map
    (fun c => (c, computeStats (t.rows.filterMap (fun r => cellNum r c))))

/-! ## Multiple-exposure grouping (`show_multiple_exposures_table`) -/

/-- The `ContentDate` rewrite of `show_multiple_exposures_table`:
`astype(str).str.strip()`, then format-free `to_datetime` with coercion,
then `.dt.normalize()`. -/
def mexpCoerce (r : Dict) : Dict :=
  dictInsert r "ContentDate"
    (match parseDateFlex (strStrip (pyStr ((List.lookup "ContentDate" r).getD PyVal.pNone))) with
     | some n => PyVal.pDate n
     | none => PyVal.pNaT)

/-- The group key of one (already coerced) row, or `none` when
`dropna(subset=["PatientID", "ContentDate"])` discards it: a missing
(`NaN`/`NaT`) patient identifier, or a `ContentDate` that did not parse
to a day. -/
def rowKeyM (r : Dict) : Option (PyVal × Nat) :=
  let pid := (List.lookup "PatientID" r).getD PyVal.pNone
  if pid = PyVal.pNone ∨ pid = PyVal.pNaT then none
  else
    match (List.lookup "ContentDate" r).getD PyVal.pNone with
    | .pDate n => some (pid, n)
    | _ => none

/-- The rows surviving coercion and `dropna` — the set that is grouped. -/
def mexpBase (t : Table) : List Dict :=
  (t.rows.map mexpCoerce).filter (fun r => (rowKeyM r).isSome)

/-- The size `groupby(["PatientID", "ContentDate"]).size()` for one key. -/
def mexpCount (t : Table) (k : PyVal × Nat) : Nat :=
  ((mexpBase t).filterMap rowKeyM).count k

/-- The merged result rows: every grouped row whose group has
cardinality at least 3 (`exposure_counts["ExposureCount"] >= 3`). -/
def mexpRows (t : Table) : List Dict :=
  (mexpBase t).filter
    (fun r =>
      match rowKeyM r with
      | some k => decide (3 ≤ mexpCount t k)
      | none => false)

/-- The method `show_multiple_exposures_table` on the displayed table: `none` is
the missing-required-columns error (the operation aborts); otherwise the
rows of the report. -/
def show_multiple_exposures_table (t : Table) : Option (List Dict) :=
  if t.columns.contains "ContentDate" && t.columns.contains "PatientID" then
    some (mexpRows t)
  else none

/-! ## Concrete data used by the witness theorems -/

/-- A successfully parsed document whose tree and top-level attribute
pass extract nothing: no content sequence, no readable target attribute. -/
def emptyDoc : Doc :=
  { contentSeq :=
      [ContentNode.mk (some "Not A Target") none (some "ignored") none none none []]
    topAttrs := [] }

/-- A document extracting one tree concept (`KVP`) and two top-level
attributes. -/
def doc1 : Doc :=
  { contentSeq := [ContentNode.mk (some "KVP") (some (some (pfInt 120))) none none none none []]
    topAttrs := [("PatientID", "P1"), ("ContentDate", "20240101")] }

/-- A node carrying every value kind at once. -/
def nodeAllKinds : ContentNode :=
  ContentNode.mk (some "KVP") (some (some (pfInt 5))) (some "txt") (some "20240101120000")
    (some "1.2.3") (some "DOE^J") []

/-- A node whose only kinds are free text and date-time. -/
def nodeTextDT : ContentNode :=
  ContentNode.mk (some "KVP") none (some "txt") (some "20240101120000") none none []

/-- A matching node carrying no value kind at all. -/
def nodeNoKind : ContentNode :=
  ContentNode.mk (some "KVP") none none none none none []

/-- A one-row table whose `ContentDate` does not parse. -/
def tC3 : Table :=
  { columns := ["ContentDate", "PatientID"]
    rows := [[("ContentDate", PyVal.pStr "notadate"), ("PatientID", PyVal.pStr "P1")]] }

def rC3 : Dict :=
  [("ContentDate", PyVal.pStr "notadate"), ("PatientID", PyVal.pStr "P1")]

def specsC3 : List (String × String) := [("PatientID", "p1")]

/-- A displayed table with a three-exposure group (`P1`), a two-exposure
group (`P2`) and one row whose date does not parse (`P3`). -/
def t4rows : List Dict :=
  [[("PatientID", PyVal.pStr "P1"), ("ContentDate", PyVal.pStr "20240101"), ("KVP", PyVal.pStr "120")],
   [("PatientID", PyVal.pStr "P1"), ("ContentDate", PyVal.pStr "20240101"), ("KVP", PyVal.pStr "80")],
   [("PatientID", PyVal.pStr "P1"), ("ContentDate", PyVal.pStr "20240101"), ("KVP", PyVal.pStr "100")],
   [("PatientID", PyVal.pStr "P2"), ("ContentDate", PyVal.pStr "20240101"), ("KVP", PyVal.pStr "90")],
   [("PatientID", PyVal.pStr "P2"), ("ContentDate", PyVal.pStr "20240101"), ("KVP", PyVal.pStr "95")],
   [("PatientID", PyVal.pStr "P3"), ("ContentDate", PyVal.pStr "garbage"), ("KVP", PyVal.pStr "70")]]

def t4 : Table := { columns := ["PatientID", "ContentDate", "KVP"], rows := t4rows }

def r4a : Dict := mexpCoerce (t4rows.getD 0 [])

def r4b : Dict := mexpCoerce (t4rows.getD 3 [])

def r4c : Dict := mexpCoerce (t4rows.getD 5 [])

/-- A table whose `SeriesNumber` column is numeric. -/
def t7 : Table :=
  { columns := ["SeriesNumber", "KVP"]
    rows := [[("SeriesNumber", PyVal.pStr "3"), ("KVP", PyVal.pStr "120")],
             [("SeriesNumber", PyVal.pStr "4"), ("KVP", PyVal.pStr "80")]] }

/-- An application state with active filters, one parseable and one
unparseable `ContentDate`. -/
def stC9 : AppState :=
  { data := { columns := ["ContentDate", "StationName"]
              rows := [[("ContentDate", PyVal.pStr "20240101"), ("StationName", PyVal.pStr "HALO")],
                       [("ContentDate", PyVal.pStr "baddate"), ("StationName", PyVal.pStr "HALO")]] }
    filteredData := { columns := [], rows := [] }
    active_filters := [("StationName", "HA")]
    startDate := "20240101"
    endDate := "" }

def rC9 : Dict :=
  [("ContentDate", PyVal.pStr "baddate"), ("StationName", PyVal.pStr "HALO")]

/-! ## Supporting lemmas -/

theorem mem_of_contains {l : List String} {a : String}
    (h : l.contains a = true) : a ∈ l := by
  simpa using h

theorem contains_of_mem {l : List String} {a : String} (h : a ∈ l) :
    l.contains a = true := by
  simpa using h

theorem lookup_eq_none_of_not_mem_keys (d : Dict) (k : String)
    (h : k ∉ d.map Prod.fst) : List.lookup k d = none := by
  induction d with
  | nil => rfl
  | cons p rest ih =>
    obtain ⟨a, b⟩ := p
    simp only [List.map_cons, List.mem_cons, not_or] at h
    have hk : (k == a) = false := beq_eq_false_iff_ne.mpr h.1
    simp [List.lookup, hk, ih h.2]

theorem lookup_map_replace (d : Dict) (k : String) (v : PyVal)
    (h : k ∈ d.map Prod.fst) :
    List.lookup k (d.map (fun p => if p.1 = k then (k, v) else p)) = some v := by
  induction d with
  | nil => simp at h
  | cons p rest ih =>
    obtain ⟨a, b⟩ := p
    rw [List.map_cons]
    by_cases ha : a = k
    · subst ha
      rw [if_pos (show ((a, b) : String × PyVal).1 = a from rfl)]
      simp [List.lookup]
    · have hk : (k == a) = false := beq_eq_false_iff_ne.mpr (Ne.symm ha)
      simp only [List.map_cons, List.mem_cons] at h
      rcases h with h | h
      · exact absurd h.symm ha
      · rw [if_neg (show ¬ ((a, b) : String × PyVal).1 = k from ha)]
        simp only [List.lookup, hk]
        exact ih h

theorem lookup_append_of_none (d1 d2 : Dict) (k : String)
    (h : List.lookup k d1 = none) :
    List.lookup k (d1 ++ d2) = List.lookup k d2 := by
  induction d1 with
  | nil => simp
  | cons p rest ih =>
    obtain ⟨a, b⟩ := p
    rw [List.cons_append]
    by_cases hk : (k == a) = true
    · simp only [List.lookup, hk] at h
      exact absurd h (by simp)
    · have hk' : (k == a) = false := by simpa using hk
      simp only [List.lookup, hk'] at h ⊢
      exact ih h

theorem lookup_dictInsert_self (d : Dict) (k : String) (v : PyVal) :
    List.lookup k (dictInsert d k v) = some v := by
  unfold dictInsert
  by_cases h : k ∈ d.map Prod.fst
  · rw [if_pos (contains_of_mem h)]
    exact lookup_map_replace d k v h
  · rw [if_neg (by simpa using h)]
    rw [lookup_append_of_none _ _ _ (lookup_eq_none_of_not_mem_keys d k h)]
    simp [List.lookup]

theorem keys_dictInsert (d : Dict) (k j : String) (v : PyVal)
    (h : j ∈ (dictInsert d k v).map Prod.fst) :
    j = k ∨ j ∈ d.map Prod.fst := by
  unfold dictInsert at h
  by_cases hc : (d.map Prod.fst).contains k
  · rw [if_pos hc] at h
    simp only [List.map_map, List.mem_map, Function.comp] at h
    obtain ⟨p, hp, hj⟩ := h
    by_cases hpk : p.1 = k
    · rw [if_pos hpk] at hj
      exact Or.inl hj.symm
    · rw [if_neg hpk] at hj
      exact Or.inr (List.mem_map.mpr ⟨p, hp, hj⟩)
  · rw [if_neg hc] at h
    simp only [List.map_append, List.mem_append, List.map_cons, List.map_nil,
      List.mem_singleton] at h
    rcases h with h | h
    · exact Or.inr h
    · exact Or.inl h

theorem mem_applySpecs (cols : List String) (specs : List (String × String))
    (rows : List Dict) (x : Dict) :
    x ∈ applySpecs cols specs rows ↔
      x ∈ rows ∧
        ∀ cv ∈ specs, cols.contains cv.1 = true → rowMatches x cv.1 cv.2 = true := by
  induction specs generalizing rows with
  | nil => simp [applySpecs]
  | cons cv rest ih =>
    unfold applySpecs
    rw [ih]
    by_cases h : cols.contains cv.1 = true
    · rw [if_pos h]
      simp only [List.mem_filter, List.mem_cons, forall_eq_or_imp]
      constructor
      · rintro ⟨⟨hx, hm⟩, hrest⟩
        exact ⟨hx, fun _ => hm, hrest⟩
      · rintro ⟨hx, hm, hrest⟩
        exact ⟨⟨hx, hm h⟩, hrest⟩
    · rw [if_neg h]
      simp only [List.mem_cons, forall_eq_or_imp]
      constructor
      · rintro ⟨hx, hrest⟩
        exact ⟨hx, fun hcontra => absurd hcontra h, hrest⟩
      · rintro ⟨hx, _, hrest⟩
        exact ⟨hx, hrest⟩

theorem keys_reindexRow (oldCols : List String) (r : Dict)
    (p : String × PyVal) :
    ∀ (newCols : List String), p ∈ reindexRow oldCols r newCols →
      p.1 ∈ newCols := by
  intro newCols
  induction newCols with
  | nil => intro h; cases h
  | cons c0 cs ih =>
    intro h
    unfold reindexRow at h
    split at h
    · split at h
      · rcases List.mem_cons.mp h with rfl | h
        · exact List.mem_cons_self c0 cs
        · exact List.mem_cons_of_mem c0 (ih h)
      · exact List.mem_cons_of_mem c0 (ih h)
    · exact List.mem_cons_of_mem c0 (ih h)

theorem lookup_reindexRow_of_not_mem (oldCols newCols : List String) (r : Dict)
    (c : String) (h : c ∉ newCols) :
    List.lookup c (reindexRow oldCols r newCols) = none := by
  apply lookup_eq_none_of_not_mem_keys
  intro hmem
  rw [List.mem_map] at hmem
  obtain ⟨p, hp, hpc⟩ := hmem
  exact h (hpc ▸ keys_reindexRow oldCols r p newCols hp)

theorem lookup_reindexRow (oldCols : List String) (r : Dict) (c : String) :
    ∀ (newCols : List String), c ∈ newCols → newCols.Nodup →
      List.lookup c (reindexRow oldCols r newCols) =
        if oldCols.contains c then List.lookup c r else none := by
  intro newCols
  induction newCols with
  | nil => intro hmem; simp at hmem
  | cons c0 cs ih =>
    intro hmem hnd
    rw [List.nodup_cons] at hnd
    by_cases hc0 : c0 = c
    · subst hc0
      have htail : List.lookup c0 (reindexRow oldCols r cs) = none :=
        lookup_reindexRow_of_not_mem oldCols cs r c0 hnd.1
      unfold reindexRow
      by_cases ho : oldCols.contains c0 = true
      · rw [if_pos ho, if_pos ho]
        cases hl : List.lookup c0 r with
        | some v => simp [List.lookup]
        | none => exact htail
      · rw [if_neg ho, if_neg ho]
        exact htail
    · have hcs : c ∈ cs := by
        rcases List.mem_cons.mp hmem with h | h
        · exact absurd h.symm hc0
        · exact h
      have tail := ih hcs hnd.2
      unfold reindexRow
      by_cases ho : oldCols.contains c0 = true
      · rw [if_pos ho]
        cases hl : List.lookup c0 r with
        | some v =>
          have hk : (c == c0) = false := beq_eq_false_iff_ne.mpr (Ne.symm hc0)
          simp only [List.lookup, hk]
          exact tail
        | none => exact tail
      · rw [if_neg ho]
        exact tail

theorem mem_addCols_left (acc : List String) (r : Dict) (k : String)
    (h : k ∈ acc) : k ∈ addCols acc r :=
  List.mem_append_left _ h

theorem mem_addCols_keys (acc : List String) (r : Dict) (k : String)
    (h : k ∈ r.map Prod.fst) : k ∈ addCols acc r := by
  by_cases ha : k ∈ acc
  · exact List.mem_append_left _ ha
  · refine List.mem_append_right _ ?_
    rw [List.mem_filter]
    refine ⟨h, ?_⟩
    simp [ha]

theorem mem_foldl_addCols (records : List Dict) (k : String) :
    ∀ (acc : List String),
      (k ∈ acc ∨ ∃ r, r ∈ records ∧ k ∈ r.map Prod.fst) →
      k ∈ records.foldl addCols acc := by
  induction records with
  | nil =>
    intro acc h
    rcases h with h | ⟨r, hr, _⟩
    · exact h
    · simp at hr
  | cons r0 rs ih =>
    intro acc h
    rw [List.foldl_cons]
    apply ih
    rcases h with h | ⟨r, hr, hk⟩
    · exact Or.inl (mem_addCols_left acc r0 k h)
    · rcases List.mem_cons.mp hr with rfl | hr
      · exact Or.inl (mem_addCols_keys acc r k hk)
      · exact Or.inr ⟨r, hr, hk⟩

theorem mem_dataFrameColumns (records : List Dict) (r : Dict) (k : String)
    (hr : r ∈ records) (hk : k ∈ r.map Prod.fst) :
    k ∈ dataFrameColumns records :=
  mem_foldl_addCols records k [] (Or.inr ⟨r, hr, hk⟩)

theorem keys_nodeWrite (d : Dict) (n : ContentNode) (k : String)
    (h : k ∈ (nodeWrite d n).map Prod.fst) :
    k ∈ d.map Prod.fst ∨ k ∈ target_concepts := by
  cases n with
  | mk cname m t dt u p cs =>
    cases cname with
    | none => exact Or.inl h
    | some c =>
      by_cases ht : c ≠ "" ∧ c ∈ target_concepts
      · have e : nodeWrite d (ContentNode.mk (some c) m t dt u p cs) =
            (match nodeValue (ContentNode.mk (some c) m t dt u p cs) with
             | some v => dictInsert d c v
             | none => d) := by
          unfold nodeWrite
          simp only [ContentNode.conceptName]
          rw [if_pos ht]
        rw [e] at h
        cases hv : nodeValue (ContentNode.mk (some c) m t dt u p cs) with
        | none => rw [hv] at h; exact Or.inl h
        | some v =>
          rw [hv] at h
          rcases keys_dictInsert d c k v h with rfl | h2
          · exact Or.inr ht.2
          · exact Or.inl h2
      · have e : nodeWrite d (ContentNode.mk (some c) m t dt u p cs) = d := by
          unfold nodeWrite
          simp only [ContentNode.conceptName]
          rw [if_neg ht]
        rw [e] at h
        exact Or.inl h

mutual

theorem keys_parseItem (d : Dict) (n : ContentNode) (k : String)
    (h : k ∈ (parseItem d n).map Prod.fst) :
    k ∈ d.map Prod.fst ∨ k ∈ target_concepts := by
  cases n with
  | mk c m t dt u p cs =>
    unfold parseItem at h
    rcases keys_parse_sequence (nodeWrite d (ContentNode.mk c m t dt u p cs)) cs k h with
      h | h
    · exact keys_nodeWrite d (ContentNode.mk c m t dt u p cs) k h
    · exact Or.inr h

theorem keys_parse_sequence (d : Dict) (l : List ContentNode) (k : String)
    (h : k ∈ (parse_sequence d l).map Prod.fst) :
    k ∈ d.map Prod.fst ∨ k ∈ target_concepts := by
  cases l with
  | nil => exact Or.inl h
  | cons n rest =>
    unfold parse_sequence at h
    rcases keys_parse_sequence (parseItem d n) rest k h with h | h
    · exact keys_parseItem d n k h
    · exact Or.inr h

end

theorem keys_attr_fold (attrs : List (String × String)) (k : String) :
    ∀ (tags : List String) (d : Dict),
      k ∈ ((tags.foldl
        (fun d tag =>
          match List.lookup tag attrs with
          | some s => dictInsert d tag (PyVal.pStr s)
          | none => d) d).map Prod.fst) →
      k ∈ d.map Prod.fst ∨ k ∈ tags := by
  intro tags
  induction tags with
  | nil => intro d h; exact Or.inl h
  | cons t ts ih =>
    intro d h
    rw [List.foldl_cons] at h
    rcases ih _ h with h1 | h1
    · cases hl : List.lookup t attrs with
      | some s =>
        rw [hl] at h1
        rcases keys_dictInsert d t k (PyVal.pStr s) h1 with rfl | h2
        · exact Or.inr (List.mem_cons_self _ _)
        · exact Or.inl h2
      | none =>
        rw [hl] at h1
        exact Or.inl h1
    · exact Or.inr (List.mem_cons_of_mem t h1)

theorem applyStartBound_empty (rows : List Dict) : applyStartBound "" rows = rows := by
  unfold applyStartBound
  rw [if_pos rfl]

theorem applyEndBound_empty (rows : List Dict) : applyEndBound "" rows = rows := by
  unfold applyEndBound
  rw [if_pos rfl]

theorem applyStartBound_active (sD : String) (b : Nat) (rows : List Dict)
    (hsD : sD ≠ "") (hb : parseDate8 sD = some b) :
    applyStartBound sD rows = rows.filter (fun r => dateCellGE r b) := by
  unfold applyStartBound
  rw [if_neg hsD, hb]

theorem applyEndBound_active (sD : String) (b : Nat) (rows : List Dict)
    (hsD : sD ≠ "") (hb : parseDate8 sD = some b) :
    applyEndBound sD rows = rows.filter (fun r => dateCellLE r b) := by
  unfold applyEndBound
  rw [if_neg hsD, hb]

/-! ## The claims -/

/-- C1 (counterexample): a successfully parsed document whose traversal
and top-level attribute pass yield an empty record is NOT retained in
the built collection — `load_dicom_data` tests `if info:` and drops the
empty dict, so the claimed \"empty record appended\" is false. -/
theorem empty_record_dropped_cex :
    extract_targeted_data emptyDoc = [] ∧
    (load_dicom_data [emptyDoc]).rows = [] :=
  ⟨by decide, by decide⟩

/-- C1 (amended): a record is retained in the `records` list exactly
when it is the non-empty extraction of one of the input documents; a
document whose extraction is empty is dropped; the built table has one
row per retained record. -/
theorem load_records_keeps_exactly_nonempty (docs : List Doc) (r : Dict) :
    (r ∈ loadRecords docs ↔
      r ≠ [] ∧ ∃ d, d ∈ docs ∧ extract_targeted_data d = r) ∧
    (load_dicom_data docs).rows.length = (loadRecords docs).length := by
  constructor
  · constructor
    · intro h
      unfold loadRecords at h
      rw [List.mem_filter] at h
      obtain ⟨hmem, hne⟩ := h
      rw [List.mem_map] at hmem
      obtain ⟨d, hd, hdr⟩ := hmem
      exact ⟨by simpa using hne, d, hd, hdr⟩
    · rintro ⟨hne, d, hd, rfl⟩
      unfold loadRecords
      rw [List.mem_filter]
      exact ⟨List.mem_map_of_mem _ hd, by simpa using hne⟩
  · show ((loadRecords docs).map _).length = _
    rw [List.length_map]

/-- C2: on the mixed column `[\"10\", \"2\", \"abc\"]` the sort raises
(`float` and lowercased-`str` keys are incomparable in Python 3), instead
of producing the order `2, 10, abc` claimed by the specification; on a
fully numeric column the numeric order is produced and the direction
toggles. -/
theorem sort_column_mixed_type_error :
    sort_column ["10", "2", "abc"] false = Except.error () ∧
    sort_column ["120", "80", "100"] false = Except.ok (["80", "100", "120"], true) :=
  ⟨rfl, rfl⟩

/-- C3: a record whose `ContentDate` fails to parse (`NaT` after
coercion) is excluded by any active lower or upper date bound, but is
not dropped from the base set the text predicates evaluate: with no
date bound active it appears in the filtered view whenever it satisfies
every applicable text spec. -/
theorem unparseable_date_excluded_by_bounds_not_text (t : Table)
    (specs : List (String × String)) (r : Dict) (sD : String) (b : Nat)
    (hr : r ∈ t.rows) (hun : coercedDate r = PyVal.pNaT)
    (hb : parseDate8 sD = some b)
    (hmatch : ∀ cv ∈ specs, (filterCols t).contains cv.1 = true →
      rowMatches (coerceDates r) cv.1 cv.2 = true) :
    coerceDates r ∉ (apply_all_filters t sD "" specs).rows ∧
    coerceDates r ∉ (apply_all_filters t "" sD specs).rows ∧
    coerceDates r ∈ (apply_all_filters t "" "" specs).rows := by
  have hsD : sD ≠ "" := by
    intro h
    rw [h] at hb
    simp [parseDate8] at hb
  have hlk : List.lookup "ContentDate" (coerceDates r) = some PyVal.pNaT := by
    unfold coerceDates
    rw [lookup_dictInsert_self, hun]
  have hge : dateCellGE (coerceDates r) b = false := by
    unfold dateCellGE
    rw [hlk]
  have hle : dateCellLE (coerceDates r) b = false := by
    unfold dateCellLE
    rw [hlk]
  refine ⟨?_, ?_, ?_⟩
  · intro hmem
    unfold apply_all_filters at hmem
    have h1 := ((mem_applySpecs _ _ _ _).mp hmem).1
    rw [applyEndBound_empty, applyStartBound_active sD b _ hsD hb] at h1
    have h2 := (List.mem_filter.mp h1).2
    rw [hge] at h2
    cases h2
  · intro hmem
    unfold apply_all_filters at hmem
    have h1 := ((mem_applySpecs _ _ _ _).mp hmem).1
    rw [applyStartBound_empty, applyEndBound_active sD b _ hsD hb] at h1
    have h2 := (List.mem_filter.mp h1).2
    rw [hle] at h2
    cases h2
  · show coerceDates r ∈ applySpecs (filterCols t) specs
      (applyEndBound "" (applyStartBound "" (t.rows.map coerceDates)))
    rw [mem_applySpecs, applyStartBound_empty, applyEndBound_empty]
    exact ⟨List.mem_map_of_mem _ hr, hmatch⟩

theorem unparseable_date_excluded_by_bounds_not_text_witness :
    coerceDates rC3 ∉ (apply_all_filters tC3 "20240101" "" specsC3).rows ∧
    coerceDates rC3 ∉ (apply_all_filters tC3 "" "20240101" specsC3).rows ∧
    coerceDates rC3 ∈ (apply_all_filters tC3 "" "" specsC3).rows :=
  unparseable_date_excluded_by_bounds_not_text tC3 specsC3 rC3 "20240101" 20240101
    (by decide) (by decide) (by decide) (by decide)

/-- C4: over the displayed table (both required columns present), rows
whose patient identifier or date is missing/unparseable are excluded
before grouping, and a row with group key `k` is reported exactly when
its `(PatientID, calendar day)` group has cardinality at least 3. -/
theorem multiple_exposures_threshold (t : Table) (r r' : Dict) (k : PyVal × Nat)
    (hc : t.columns.contains "ContentDate" = true)
    (hp : t.columns.contains "PatientID" = true)
    (hr : r ∈ t.rows.map mexpCoerce) (hk : rowKeyM r = some k)
    (hr2 : r' ∈ t.rows.map mexpCoerce) (hk' : rowKeyM r' = none) :
    show_multiple_exposures_table t = some (mexpRows t) ∧
    (r ∈ mexpRows t ↔ 3 ≤ mexpCount t k) ∧
    r' ∉ mexpRows t := by
  refine ⟨?_, ?_, ?_⟩
  · unfold show_multiple_exposures_table
    rw [hc, hp]
    rfl
  · unfold mexpRows
    rw [List.mem_filter]
    constructor
    · rintro ⟨hbase, hcond⟩
      rw [hk] at hcond
      simpa using hcond
    · intro hcount
      refine ⟨?_, ?_⟩
      · unfold mexpBase
        rw [List.mem_filter]
        refine ⟨hr, ?_⟩
        rw [hk]
        rfl
      · rw [hk]
        simpa using hcount
  · intro hmem
    unfold mexpRows at hmem
    have h2 := (List.mem_filter.mp hmem).1
    unfold mexpBase at h2
    have h3 := (List.mem_filter.mp h2).2
    rw [hk'] at h3
    cases h3

theorem multiple_exposures_threshold_witness :
    mexpCount t4 (PyVal.pStr "P1", 20240101) = 3 ∧
    mexpCount t4 (PyVal.pStr "P2", 20240101) = 2 ∧
    (r4a ∈ mexpRows t4 ↔ 3 ≤ mexpCount t4 (PyVal.pStr "P1", 20240101)) ∧
    (r4b ∈ mexpRows t4 ↔ 3 ≤ mexpCount t4 (PyVal.pStr "P2", 20240101)) ∧
    r4c ∉ mexpRows t4 := by
  have h1 := multiple_exposures_threshold t4 r4a r4c (PyVal.pStr "P1", 20240101)
    (by decide) (by decide) (by decide) (by decide) (by decide) (by decide)
  have h2 := multiple_exposures_threshold t4 r4b r4c (PyVal.pStr "P2", 20240101)
    (by decide) (by decide) (by decide) (by decide) (by decide) (by decide)
  exact ⟨by decide, by decide, h1.2.1, h2.2.1, h1.2.2⟩

/-- C5: a matching node's value is read with the fixed precedence
(measured value, then text, then date-time, then identifier, then
person name — the first present kind wins), and a node carrying none of
the five kinds writes nothing (the per-item pass leaves the record
unchanged). -/
theorem node_value_precedence (n : ContentNode) (d : Dict) :
    (∀ nv, n.mvs = some nv → nodeValue n = some (mvsVal nv)) ∧
    (∀ s, n.mvs = none → n.textValue = some s →
      nodeValue n = some (PyVal.pStr s)) ∧
    (∀ s, n.mvs = none → n.textValue = none → n.dateTime = some s →
      nodeValue n = some (PyVal.pStr s)) ∧
    (∀ s, n.mvs = none → n.textValue = none → n.dateTime = none →
      n.uidValue = some s → nodeValue n = some (PyVal.pStr s)) ∧
    (∀ s, n.mvs = none → n.textValue = none → n.dateTime = none →
      n.uidValue = none → n.personName = some s →
      nodeValue n = some (PyVal.pStr s)) ∧
    (n.mvs = none → n.textValue = none → n.dateTime = none →
      n.uidValue = none → n.personName = none → nodeValue n = none) ∧
    (nodeValue n = none → nodeWrite d n = d) := by
  refine ⟨?_, ?_, ?_, ?_, ?_, ?_, ?_⟩
  · intro nv h
    simp [nodeValue, h]
  · intro s h1 h2
    simp [nodeValue, h1, h2]
  · intro s h1 h2 h3
    simp [nodeValue, h1, h2, h3]
  · intro s h1 h2 h3 h4
    simp [nodeValue, h1, h2, h3, h4]
  · intro s h1 h2 h3 h4 h5
    simp [nodeValue, h1, h2, h3, h4, h5]
  · intro h1 h2 h3 h4 h5
    simp [nodeValue, h1, h2, h3, h4, h5]
  · intro hnv
    cases hcn : n.conceptName with
    | none =>
      unfold nodeWrite
      rw [hcn]
    | some c =>
      unfold nodeWrite
      rw [hcn]
      show (if c ≠ "" ∧ c ∈ target_concepts then
          match nodeValue n with
          | some v => dictInsert d c v
          | none => d
        else d) = d
      by_cases ht : c ≠ "" ∧ c ∈ target_concepts
      · rw [if_pos ht, hnv]
      · rw [if_neg ht]

theorem node_value_precedence_witness :
    nodeValue nodeAllKinds = some (PyVal.pNum (pfInt 5)) ∧
    nodeValue nodeTextDT = some (PyVal.pStr "txt") ∧
    nodeValue nodeNoKind = none ∧
    nodeWrite [] nodeNoKind = [] :=
  ⟨(node_value_precedence nodeAllKinds []).1 (some (pfInt 5)) rfl,
   (node_value_precedence nodeTextDT []).2.1 "txt" rfl rfl,
   (node_value_precedence nodeNoKind []).2.2.2.2.2.1 rfl rfl rfl rfl rfl,
   (node_value_precedence nodeNoKind []).2.2.2.2.2.2
     ((node_value_precedence nodeNoKind []).2.2.2.2.2.1 rfl rfl rfl rfl rfl)⟩

/-- C6: the built table's column set is exactly the canonical
`column_order` (no extra and no missing columns, in canonical order);
each retained record appears reindexed, its cell at every canonical
column equals the extracted value (absent ≡ null when no value was
extracted, while the column itself is still present), and a reindexed
row holds no key outside `column_order`. -/
theorem load_dicom_data_schema (docs : List Doc) (r : Dict) (c : String)
    (hr : r ∈ loadRecords docs) (hc : c ∈ column_order) :
    (load_dicom_data docs).columns = column_order ∧
    reindexRow (dataFrameColumns (loadRecords docs)) r column_order ∈
      (load_dicom_data docs).rows ∧
    List.lookup c (reindexRow (dataFrameColumns (loadRecords docs)) r column_order) =
      List.lookup c r ∧
    (reindexRow (dataFrameColumns (loadRecords docs)) r column_order).all
      (fun p => column_order.contains p.1) = true := by
  have hnd : column_order.Nodup := by decide
  refine ⟨rfl, ?_, ?_, ?_⟩
  · show _ ∈ (loadRecords docs).map
      (fun r => reindexRow (dataFrameColumns (loadRecords docs)) r column_order)
    exact List.mem_map_of_mem _ hr
  · rw [lookup_reindexRow _ _ _ column_order hc hnd]
    by_cases ho : (dataFrameColumns (loadRecords docs)).contains c = true
    · rw [if_pos ho]
    · rw [if_neg ho]
      symm
      apply lookup_eq_none_of_not_mem_keys
      intro hkm
      exact ho (contains_of_mem (mem_dataFrameColumns _ _ _ hr hkm))
  · rw [List.all_eq_true]
    intro p hp
    exact contains_of_mem (keys_reindexRow _ _ p column_order hp)

theorem load_dicom_data_schema_witness :
    (load_dicom_data [doc1]).columns = column_order ∧
    reindexRow (dataFrameColumns (loadRecords [doc1]))
      (extract_targeted_data doc1) column_order ∈ (load_dicom_data [doc1]).rows ∧
    List.lookup "DLP" (reindexRow (dataFrameColumns (loadRecords [doc1]))
      (extract_targeted_data doc1) column_order) =
      List.lookup "DLP" (extract_targeted_data doc1) ∧
    (reindexRow (dataFrameColumns (loadRecords [doc1]))
      (extract_targeted_data doc1) column_order).all
      (fun p => column_order.contains p.1) = true :=
  load_dicom_data_schema [doc1] (extract_targeted_data doc1) "DLP"
    (by decide) (by decide)

/-- C7: no member of the fixed exclusion list ever appears among the
columns of the summary-statistics output, regardless of the table (in
particular even when the excluded column is numeric). -/
theorem summary_stats_excludes_admin_columns (t : Table) (c : String)
    (h : c ∈ excluded_variables) :
    c ∉ (show_summary_stats t).map Prod.fst := by
  intro hmem
  unfold show_summary_stats at hmem
  rw [List.map_map] at hmem
  rw [show (Prod.fst ∘ fun c =>
      (c, computeStats (t.rows.filterMap (fun r => cellNum r c)))) =
      fun c => c from rfl] at hmem
  rw [show (summaryStatsColumns t).map (fun c => c) = summaryStatsColumns t from
    List.map_id _] at hmem
  unfold summaryStatsColumns at hmem
  have h2 := (List.mem_filter.mp hmem).2
  rw [contains_of_mem h] at h2
  simp at h2

theorem summary_stats_excludes_admin_columns_witness :
    "SeriesNumber" ∈ numericColumns t7 ∧
    "SeriesNumber" ∉ (show_summary_stats t7).map Prod.fst :=
  ⟨by decide, summary_stats_excludes_admin_columns t7 "SeriesNumber" (by decide)⟩

/-- C8: reapplying the filters with the state unchanged is idempotent —
the recomputation reads only the base collection and the filter state,
never the previous filtered view — and the resulting view is the pure
function `apply_all_filters` of the base collection and that state. -/
theorem apply_all_filters_idempotent (st : AppState) :
    applyAllStep (applyAllStep st) = applyAllStep st ∧
    (applyAllStep st).filteredData =
      apply_all_filters st.data st.startDate st.endDate st.active_filters :=
  ⟨rfl, rfl⟩

/-- C9: clearing all filters recomputes the view from the base
collection with no bound and no spec active: the base is untouched, the
view is exactly the base rows with `ContentDate` replaced by its parsed
value (`NaT` when unparseable), so a raw date string never survives
into the view's `ContentDate` cell. -/
theorem clear_all_filters_coerces_dates (st : AppState) (r : Dict) (s : String)
    (hr : r ∈ st.data.rows)
    (hcell : List.lookup "ContentDate" r = some (PyVal.pStr s)) :
    (clear_all_filters st).data = st.data ∧
    (clear_all_filters st).filteredData.rows = st.data.rows.map coerceDates ∧
    List.lookup "ContentDate" (coerceDates r) =
      some ((parseDate8 s).elim PyVal.pNaT PyVal.pDate) ∧
    List.lookup "ContentDate" (coerceDates r) ≠ some (PyVal.pStr s) := by
  have h3 : List.lookup "ContentDate" (coerceDates r) =
      some ((parseDate8 s).elim PyVal.pNaT PyVal.pDate) := by
    unfold coerceDates
    rw [lookup_dictInsert_self]
    unfold coercedDate
    rw [hcell]
    cases hp : parseDate8 s <;> simp [hp]
  refine ⟨rfl, ?_, h3, ?_⟩
  · show (apply_all_filters st.data "" "" []).rows = st.data.rows.map coerceDates
    rw [show (apply_all_filters st.data "" "" []).rows =
        applySpecs (filterCols st.data) []
          (applyEndBound "" (applyStartBound "" (st.data.rows.map coerceDates))) from
        rfl]
    rw [applyStartBound_empty, applyEndBound_empty]
    rfl
  · rw [h3]
    cases hp : parseDate8 s <;> simp

theorem clear_all_filters_coerces_dates_witness :
    (clear_all_filters stC9).data = stC9.data ∧
    (clear_all_filters stC9).filteredData.rows = stC9.data.rows.map coerceDates ∧
    List.lookup "ContentDate" (coerceDates rC9) =
      some ((parseDate8 "baddate").elim PyVal.pNaT PyVal.pDate) ∧
    List.lookup "ContentDate" (coerceDates rC9) ≠ some (PyVal.pStr "baddate") :=
  clear_all_filters_coerces_dates stC9 rC9 "baddate" (by decide) (by decide)

/-- C10: every key of the dictionary returned by `extract_targeted_data`
is a member of the fixed `target_concepts` set, whether written by the
tree-traversal pass or by the top-level attribute pass. -/
theorem extracted_keys_subset_target_concepts (doc : Doc) (k : String)
    (h : k ∈ (extract_targeted_data doc).map Prod.fst) :
    k ∈ target_concepts := by
  unfold extract_targeted_data at h
  rcases keys_attr_fold doc.topAttrs k target_concepts
      (parse_sequence [] doc.contentSeq) h with h1 | h1
  · rcases keys_parse_sequence [] doc.contentSeq k h1 with h2 | h2
    · simp at h2
    · exact h2
  · exact h1

theorem extracted_keys_subset_target_concepts_witness :
    "KVP" ∈ target_concepts :=
  extracted_keys_subset_target_concepts doc1 "KVP" (by decide)

end RDSR